import Mathlib

/-!
Verification of the snazo e-commerce core logic: the discount-offer
evaluator (src/lib/offers.ts), the order total calculation and order
creation (orders POST handler), the order status transition handler with
its stock reconciliation (orders PUT handler), and the review aggregator
(src/app/api/reviews/route.ts).

Money amounts and offer values are embedded as rationals, timestamps as
integers (epoch milliseconds), stock counts as integers so that the
non-negativity invariant is a real statement.
-/

namespace Snazo

/-! ### Offer data model (Prisma Offer row, fields used by the evaluator) -/

inductive OfferType where
  | PERCENTAGE
  | FIXED_AMOUNT
  | FREE_SHIPPING
deriving DecidableEq

structure Offer where
  id : String
  code : String
  isActive : Bool
  type : OfferType
  value : ℚ
  minAmount : Option ℚ
  maxUses : Option Nat
  usedCount : Nat
  startsAt : ℤ
  endsAt : ℤ
  productOfferIds : List String
deriving DecidableEq

structure OfferCalculation where
  discount : ℚ
  finalPrice : ℚ
  offer : Option Offer
deriving DecidableEq

/-- The where-clause of the db.offer.findFirst call in validateAndApplyOffer:
code equals the uppercased input, isActive, startsAt ≤ now, endsAt ≥ now,
and (maxUses is null or usedCount < maxUses). -/
def offerQueryMatches (now : ℤ) (codeUpper : String) (o : Offer) : Bool :=
  o.code == codeUpper && o.isActive &&
  decide (o.startsAt ≤ now) && decide (now ≤ o.endsAt) &&
  (match o.maxUses with
   | none => true
   | some m => decide (o.usedCount < m))

/-- offerCode.toUpperCase(): JS string uppercasing, modelled per character
(the repository's offer codes are ASCII). -/
def jsToUpper (s : String) : String := String.mk (s.data.map Char.toUpper)

/-- The db.offer.findFirst lookup: first stored offer matching the query,
with the input code uppercased (offerCode.toUpperCase()). -/
def findOffer (offers : List Offer) (now : ℤ) (offerCode : String) : Option Offer :=
  offers.find? (offerQueryMatches now (jsToUpper offerCode))

/-- The minimum-amount guard: offer.minAmount && cartTotal < offer.minAmount.
JS truthiness makes a minAmount of 0 skip the guard. -/
def minAmountBlocks (o : Offer) (cartTotal : ℚ) : Bool :=
  match o.minAmount with
  | none => false
  | some m => !(m == 0) && decide (cartTotal < m)

/-- The product-scope guard: when the offer has productOffers, the cart must
supply a non-empty productIds list intersecting the offer's product set. -/
def scopeBlocks (o : Offer) (productIds : Option (List String)) : Bool :=
  if o.productOfferIds.length > 0 then
    match productIds with
    | none => true
    | some ids => ids.isEmpty || !(ids.any (fun i => o.productOfferIds.contains i))
  else false

/-- The switch on offer.type computing the discount. -/
def computeDiscount (o : Offer) (cartTotal : ℚ) : ℚ :=
  match o.type with
  | .PERCENTAGE => cartTotal * (o.value / 100)
  | .FIXED_AMOUNT => min o.value cartTotal
  | .FREE_SHIPPING => 0

/-- Body of validateAndApplyOffer after the lookup: the early returns for the
minimum-amount and product-scope guards, then the discount computation. -/
def applyFoundOffer (found : Option Offer) (cartTotal : ℚ)
    (productIds : Option (List String)) : OfferCalculation :=
  match found with
  | none => { discount := 0, finalPrice := cartTotal, offer := none }
  | some o =>
    if minAmountBlocks o cartTotal then
      { discount := 0, finalPrice := cartTotal, offer := none }
    else if scopeBlocks o productIds then
      { discount := 0, finalPrice := cartTotal, offer := none }
    else
      let d := computeDiscount o cartTotal
      { discount := d, finalPrice := cartTotal - d, offer := some o }

/-- validateAndApplyOffer from src/lib/offers.ts, with the stored offers and
the current time passed explicitly in place of the database and the clock. -/
def validateAndApplyOffer (offers : List Offer) (now : ℤ) (offerCode : String)
    (cartTotal : ℚ) (productIds : Option (List String)) : OfferCalculation :=
  applyFoundOffer (findOffer offers now offerCode) cartTotal productIds

/-- validateAndApplyOffer with the fallible lookup made explicit: the
surrounding try/catch maps any lookup failure to the zero-discount result. -/
def validateAndApplyOfferE (lookup : Except String (Option Offer)) (cartTotal : ℚ)
    (productIds : Option (List String)) : OfferCalculation :=
  match lookup with
  | .error _ => { discount := 0, finalPrice := cartTotal, offer := none }
  | .ok found => applyFoundOffer found cartTotal productIds

/-! ### Order total calculation (orders POST handler) -/

/-- const tax = subtotal * 0.1. -/
def computeTax (subtotal : ℚ) : ℚ := subtotal * (1 / 10)

/-- const shipping = subtotal > 50 ? 0 : 5.99. -/
def computeShipping (subtotal : ℚ) : ℚ := if subtotal > 50 then 0 else 599 / 100

/-- const total = subtotal - discount + tax + shipping. -/
def computeTotal (subtotal discount : ℚ) : ℚ :=
  subtotal - discount + computeTax subtotal + computeShipping subtotal

/-! ### Order lifecycle data model -/

structure Product where
  id : String
  name : String
  stock : ℤ
  isActive : Bool
deriving DecidableEq

inductive OrderStatus where
  | PENDING
  | PROCESSING
  | SHIPPED
  | DELIVERED
  | CANCELLED
deriving DecidableEq

/-- An order line as persisted (orderItems.push in the POST handler):
price snapshot and line total alongside product and quantity. -/
structure OrderItem where
  productId : String
  quantity : ℕ
  price : ℚ
  total : ℚ
deriving DecidableEq

structure Order where
  id : String
  status : OrderStatus
  subtotal : ℚ
  discount : ℚ
  tax : ℚ
  shipping : ℚ
  total : ℚ
  offerId : Option String
  items : List OrderItem
deriving DecidableEq

/-- The slice of the database the order handlers touch. -/
structure Store where
  products : List Product
  offers : List Offer
  orders : List Order
deriving DecidableEq

/-- A line of the order-create request body (zod orderSchema item). -/
structure RequestItem where
  productId : String
  quantity : ℕ
  price : ℚ
deriving DecidableEq

structure OrderRequest where
  items : List RequestItem
  offerCode : Option String
deriving DecidableEq

/-- db.product.update with stock increment (delta may be negative). -/
def adjustStock (products : List Product) (pid : String) (delta : ℤ) : List Product :=
  products.map (fun p => if p.id == pid then { p with stock := p.stock + delta } else p)

/-- The per-item stock update loops of the order handlers: one atomic
increment/decrement of item.quantity per order item, sign ±1. -/
def adjustStockForItems (products : List Product) (items : List OrderItem)
    (sign : ℤ) : List Product :=
  items.foldl (fun ps it => adjustStock ps it.productId (sign * it.quantity)) products

/-- Total quantity the items of one order request for a given product:
the sum of quantities of the items carrying that productId. -/
def itemsQty (items : List OrderItem) (pid : String) : ℕ :=
  ((items.filter (fun it => it.productId == pid)).map OrderItem.quantity).sum

inductive CreateError where
  | validationFailed
  | productsUnavailable
  | insufficientStock (productName : String)
deriving DecidableEq

/-- The error payload message of the create handler. Only the
insufficient-stock error interpolates the failing product's name. -/
def createErrorMessage : CreateError → String
  | .validationFailed => "Validation failed"
  | .productsUnavailable => "Some products are not available"
  | .insufficientStock name => "Insufficient stock for product: " ++ name

/-- The stock-availability loop of the create handler: the first item whose
product (looked up in the fetched active products) has stock below the
requested quantity, reported by product name. -/
def firstInsufficient (fetched : List Product) (items : List RequestItem) : Option String :=
  items.findSome? (fun it =>
    match fetched.find? (fun p => p.id == it.productId) with
    | some p => if p.stock < (it.quantity : ℤ) then some p.name else none
    | none => none)

/-- Conversion of a request line into the persisted order line
(itemTotal = item.price * item.quantity). -/
def toOrderItem (it : RequestItem) : OrderItem :=
  { productId := it.productId, quantity := it.quantity, price := it.price,
    total := it.price * it.quantity }

/-- db.offer.update incrementing usedCount (incrementOfferUsage). -/
def bumpOfferUsage (offers : List Offer) (oid : String) : List Offer :=
  offers.map (fun o => if o.id == oid then { o with usedCount := o.usedCount + 1 } else o)

/-- The zod orderSchema validation on items: quantity a positive integer,
price positive. -/
def requestValid (req : OrderRequest) : Bool :=
  req.items.all (fun it => decide (0 < it.quantity) && decide (0 < it.price))

/-- The db.product.findMany of the create handler: rows with an id in the
request and isActive true. -/
def fetchedActive (st : Store) (req : OrderRequest) : List Product :=
  st.products.filter (fun p => (req.items.map RequestItem.productId).contains p.id && p.isActive)

/-- The subtotal accumulation loop: sum of item.price * item.quantity. -/
def orderSubtotal (req : OrderRequest) : ℚ :=
  ((req.items.map toOrderItem).map OrderItem.total).sum

/-- The optional offer step: validateAndApplyOffer when an offerCode came
with the request, zero discount otherwise. -/
def evalOfferForOrder (st : Store) (now : ℤ) (req : OrderRequest) : OfferCalculation :=
  match req.offerCode with
  | none => { discount := 0, finalPrice := orderSubtotal req, offer := none }
  | some c =>
    validateAndApplyOffer st.offers now c (orderSubtotal req)
      (some (req.items.map RequestItem.productId))

/-- The order row handed to db.order.create: charge fields from the total
calculation, offer reference, and the converted lines. -/
def buildOrder (st : Store) (now : ℤ) (newOrderId : String) (req : OrderRequest) : Order :=
  { id := newOrderId, status := .PENDING, subtotal := orderSubtotal req,
    discount := (evalOfferForOrder st now req).discount,
    tax := computeTax (orderSubtotal req),
    shipping := computeShipping (orderSubtotal req),
    total := orderSubtotal req - (evalOfferForOrder st now req).discount
      + computeTax (orderSubtotal req) + computeShipping (orderSubtotal req),
    offerId := (evalOfferForOrder st now req).offer.map Offer.id,
    items := req.items.map toOrderItem }

/-- The writes of the create handler success path: persist Order + items,
decrement stock per item, increment offer usage when an offer was matched. -/
def commitOrder (st : Store) (now : ℤ) (newOrderId : String) (req : OrderRequest) : Store :=
  { products := adjustStockForItems st.products (buildOrder st now newOrderId req).items (-1),
    offers :=
      match (buildOrder st now newOrderId req).offerId with
      | none => st.offers
      | some oid => bumpOfferUsage st.offers oid,
    orders := st.orders ++ [buildOrder st now newOrderId req] }

/-- The orders POST handler: zod validation, active-product fetch with the
length equality check, the per-item stock check, then the success-path
computation and writes. The handler returns before any write on every
failure path. -/
def createOrder (st : Store) (now : ℤ) (newOrderId : String) (req : OrderRequest) :
    Except CreateError (Store × Order) :=
  if !(requestValid req) then
    .error .validationFailed
  else if (fetchedActive st req).length ≠ (req.items.map RequestItem.productId).length then
    .error .productsUnavailable
  else
    match firstInsufficient (fetchedActive st req) req.items with
    | some name => .error (.insufficientStock name)
    | none => .ok (commitOrder st now newOrderId req, buildOrder st now newOrderId req)

/-! ### Order status transition (orders PUT handler, part_005) -/

inductive UpdateError where
  | orderNotFound
  | insufficientStock
deriving DecidableEq

/-- The parsed orderUpdateSchema body restricted to the status field
(optional in the schema). -/
structure OrderUpdate where
  status : Option OrderStatus
deriving DecidableEq

/-- findUnique on the order id. -/
def findOrder (st : Store) (orderId : String) : Option Order :=
  st.orders.find? (fun o => o.id == orderId)

/-- data: validatedData on db.order.update — an absent status leaves the
stored status unchanged. -/
def applyOrderUpdate (o : Order) (upd : OrderUpdate) : Order :=
  { o with status := upd.status.getD o.status }

/-- The stock-availability check of the CANCELLED-to-other branch: some item
whose product is missing or has stock below the item quantity. -/
def stockCheckFails (products : List Product) (items : List OrderItem) : Bool :=
  items.any (fun it =>
    match products.find? (fun p => p.id == it.productId) with
    | none => true
    | some p => decide (p.stock < (it.quantity : ℤ)))

/-- Guard of the stock-restoring branch: the request cancels an order whose
stored status is not already CANCELLED. -/
def cancelRestores (existing : Order) (upd : OrderUpdate) : Bool :=
  upd.status == some .CANCELLED && !(existing.status == .CANCELLED)

/-- Guard of the stock-deducting branch: the stored status is CANCELLED and
the requested status is not CANCELLED. -/
def reinstateDeducts (existing : Order) (upd : OrderUpdate) : Bool :=
  existing.status == .CANCELLED && !(upd.status == some .CANCELLED)

/-- db.order.update persisting the parsed body on the matching row. -/
def updateOrdersList (orders : List Order) (orderId : String) (upd : OrderUpdate) :
    List Order :=
  orders.map (fun o => if o.id == orderId then applyOrderUpdate o upd else o)

/-- The orders PUT handler: restore stock when moving into CANCELLED from a
non-CANCELLED status; when the stored status is CANCELLED and the requested
status is not CANCELLED, check every item's stock and either reject the whole
transition or decrement per item; finally persist the update. -/
def putOrderStatus (st : Store) (orderId : String) (upd : OrderUpdate) :
    Except UpdateError (Store × Order) :=
  match findOrder st orderId with
  | none => .error .orderNotFound
  | some existing =>
    let products1 :=
      if cancelRestores existing upd then
        adjustStockForItems st.products existing.items 1
      else st.products
    if reinstateDeducts existing upd then
      if stockCheckFails products1 existing.items then
        .error .insufficientStock
      else
        .ok ({ st with
               products := adjustStockForItems products1 existing.items (-1),
               orders := updateOrdersList st.orders orderId upd },
             applyOrderUpdate existing upd)
    else
      .ok ({ st with
             products := products1,
             orders := updateOrdersList st.orders orderId upd },
           applyOrderUpdate existing upd)

/-- The order-by-id PUT handler (the second route sharing the offers route
file): it restores stock when cancelling a non-CANCELLED order with the same
guard as the admin handler, but has no branch for leaving CANCELLED — a
transition out of CANCELLED runs no stock check and mutates no stock, it only
persists the update. -/
def putOrderStatusById (st : Store) (orderId : String) (upd : OrderUpdate) :
    Except UpdateError (Store × Order) :=
  match findOrder st orderId with
  | none => .error .orderNotFound
  | some existing =>
    let products1 :=
      if cancelRestores existing upd then
        adjustStockForItems st.products existing.items 1
      else st.products
    .ok ({ st with
           products := products1,
           orders := updateOrdersList st.orders orderId upd },
         applyOrderUpdate existing upd)

/-! ### Operation sequences over the store -/

inductive Op where
  | create (now : ℤ) (newOrderId : String) (req : OrderRequest)
  | update (orderId : String) (upd : OrderUpdate)

/-- Run one handler invocation; a failed request leaves the store as it was
(every failure path returns before any write). -/
def applyOp (st : Store) (op : Op) : Store :=
  match op with
  | .create now oid req =>
    match createOrder st now oid req with
    | .ok (st1, _) => st1
    | .error _ => st
  | .update oid upd =>
    match putOrderStatus st oid upd with
    | .ok (st1, _) => st1
    | .error _ => st

def applyOps (st : Store) (ops : List Op) : Store := ops.foldl applyOp st

/-- Every product row has non-negative stock. -/
def stocksNonneg (st : Store) : Prop := ∀ p ∈ st.products, 0 ≤ p.stock

instance (st : Store) : Decidable (stocksNonneg st) := by
  unfold stocksNonneg; infer_instance

/-- Product rows carry pairwise distinct ids (db primary key). -/
def productIdsDistinct (st : Store) : Prop := (st.products.map Product.id).Nodup

instance (st : Store) : Decidable (productIdsDistinct st) := by
  unfold productIdsDistinct; infer_instance

/-- An order references each product in at most one line. -/
def orderItemsDistinct (o : Order) : Prop := (o.items.map OrderItem.productId).Nodup

instance (o : Order) : Decidable (orderItemsDistinct o) := by
  unfold orderItemsDistinct; infer_instance

/-- The store invariant: non-negative stock, distinct product ids, and
per-order distinct line products (the shape every created order has). -/
def StoreInv (st : Store) : Prop :=
  stocksNonneg st ∧ productIdsDistinct st ∧ ∀ o ∈ st.orders, orderItemsDistinct o

instance (st : Store) : Decidable (StoreInv st) := by
  unfold StoreInv; infer_instance

/-! ### Review aggregator (reviews POST handler and updateProductRating) -/

/-- The product fields the review aggregator reads and writes. -/
structure RProduct where
  id : String
  rating : ℚ
  reviewCount : ℕ
deriving DecidableEq

structure Review where
  userId : String
  productId : String
  rating : ℕ
  isActive : Bool
deriving DecidableEq

structure ReviewState where
  products : List RProduct
  reviews : List Review
deriving DecidableEq

inductive ReviewError where
  | validationFailed
  | productNotFound
  | alreadyReviewed
deriving DecidableEq

/-- The findMany of updateProductRating: ratings of the product's active
reviews. -/
def activeRatings (reviews : List Review) (pid : String) : List ℕ :=
  (reviews.filter (fun r => r.productId == pid && r.isActive)).map Review.rating

/-- updateProductRating: full re-scan of the product's active reviews, mean
rating (0 when there are none) and count written back onto the product. -/
def updateProductRating (st : ReviewState) (pid : String) : ReviewState :=
  let rs := activeRatings st.reviews pid
  let avg : ℚ := if rs.length > 0 then (rs.sum : ℚ) / rs.length else 0
  { st with
    products := st.products.map (fun p =>
      if p.id == pid then { p with rating := avg, reviewCount := rs.length } else p) }

/-- The reviews POST handler: zod rating bound (int, 1..5), product
existence, the unique (userId, productId) pre-insert check, the insert (a
fresh review is active), then the rating recomputation. -/
def createReview (st : ReviewState) (userId productId : String) (rating : ℕ) :
    Except ReviewError (ReviewState × Review) :=
  if !(decide (1 ≤ rating) && decide (rating ≤ 5)) then
    .error .validationFailed
  else if !(st.products.any (fun p => p.id == productId)) then
    .error .productNotFound
  else if st.reviews.any (fun r => r.userId == userId && r.productId == productId) then
    .error .alreadyReviewed
  else
    let review : Review :=
      { userId := userId, productId := productId, rating := rating, isActive := true }
    let st1 : ReviewState := { st with reviews := st.reviews ++ [review] }
    .ok (updateProductRating st1 productId, review)

/-- At most one review per (userId, productId) pair. -/
def pairUnique (st : ReviewState) : Prop :=
  st.reviews.Pairwise (fun r1 r2 => ¬(r1.userId = r2.userId ∧ r1.productId = r2.productId))

instance (st : ReviewState) : Decidable (pairUnique st) := by
  unfold pairUnique; infer_instance

/-! ### Helper lemmas on stock adjustment -/

theorem itemsQty_nil (pid : String) : itemsQty [] pid = 0 := rfl

theorem itemsQty_cons (it : OrderItem) (items : List OrderItem) (pid : String) :
    itemsQty (it :: items) pid =
      (if it.productId == pid then it.quantity else 0) + itemsQty items pid := by
  by_cases h : (it.productId == pid) = true
  · simp [itemsQty, List.filter_cons, h]
  · simp [itemsQty, List.filter_cons, h]

/-- Running the per-item stock loop is the same as mapping every product row
to its stock minus/plus the total quantity the items carry for its id. -/
theorem adjustStockForItems_eq (items : List OrderItem) (products : List Product)
    (sign : ℤ) :
    adjustStockForItems products items sign =
      products.map (fun q => { q with stock := q.stock + sign * (itemsQty items q.id : ℤ) }) := by
  induction items generalizing products with
  | nil =>
    simp only [adjustStockForItems, List.foldl_nil, itemsQty_nil, Nat.cast_zero,
      mul_zero, add_zero]
    exact (List.map_id products).symm
  | cons it items ih =>
    simp only [adjustStockForItems, List.foldl_cons] at ih ⊢
    rw [ih, adjustStock, List.map_map]
    refine List.map_congr_left (fun q _ => ?_)
    simp only [Function.comp_apply, itemsQty_cons]
    by_cases h : (q.id == it.productId) = true
    · have h2 : (it.productId == q.id) = true := beq_iff_eq.mpr (beq_iff_eq.mp h).symm
      simp only [h, if_true, h2]
      show Product.mk q.id q.name (q.stock + sign * it.quantity + sign * (itemsQty items q.id : ℤ)) q.isActive =
        Product.mk q.id q.name (q.stock + sign * ((it.quantity + itemsQty items q.id : ℕ) : ℤ)) q.isActive
      congr 1
      push_cast
      ring
    · have h2 : (it.productId == q.id) = false := by
        rw [beq_eq_false_iff_ne]
        exact fun e => h (beq_iff_eq.mpr e.symm)
      simp [h, h2]

/-- Stock adjustment does not change ids, names or activity flags. -/
theorem adjustStockForItems_map_id (items : List OrderItem) (products : List Product)
    (sign : ℤ) :
    (adjustStockForItems products items sign).map Product.id = products.map Product.id := by
  rw [adjustStockForItems_eq, List.map_map]
  rfl

/-- Membership in the adjusted list: every row comes from an original row with
the same id, name and activity, stock shifted by the item total for its id. -/
theorem mem_adjustStockForItems (items : List OrderItem) (products : List Product)
    (sign : ℤ) (p : Product) (hp : p ∈ adjustStockForItems products items sign) :
    ∃ q ∈ products, p = { q with stock := q.stock + sign * (itemsQty items q.id : ℤ) } := by
  rw [adjustStockForItems_eq] at hp
  obtain ⟨q, hq, rfl⟩ := List.mem_map.mp hp
  exact ⟨q, hq, rfl⟩

/-- With pairwise distinct ids, find? by id of a member returns that member. -/
theorem find?_of_mem_of_nodup (l : List Product) (p : Product)
    (hn : (l.map Product.id).Nodup) (hp : p ∈ l) :
    l.find? (fun q => q.id == p.id) = some p := by
  induction l with
  | nil => cases hp
  | cons a l ih =>
    simp only [List.map_cons, List.nodup_cons] at hn
    rcases List.mem_cons.mp hp with rfl | hmem
    · simp [List.find?_cons]
    · by_cases hip : (a.id == p.id) = true
      · exfalso
        have hmm : p.id ∈ l.map Product.id := List.mem_map.mpr ⟨p, hmem, rfl⟩
        exact hn.1 ((beq_iff_eq.mp hip) ▸ hmm)
      · have hipf : (a.id == p.id) = false := Bool.eq_false_iff.mpr hip
        simp only [List.find?_cons, hipf]
        exact ih hn.2 hmem

/-- With distinct ids, two rows sharing an id are the same row. -/
theorem eq_of_mem_of_id_eq (l : List Product) (p q : Product)
    (hn : (l.map Product.id).Nodup) (hp : p ∈ l) (hq : q ∈ l) (h : p.id = q.id) :
    p = q :=
  List.inj_on_of_nodup_map hn hp hq h

/-- With per-order distinct line products, the item total for a line's product
is exactly that line's quantity. -/
theorem itemsQty_of_nodup (items : List OrderItem) (it : OrderItem)
    (hn : (items.map OrderItem.productId).Nodup) (hmem : it ∈ items) :
    itemsQty items it.productId = it.quantity := by
  induction items with
  | nil => cases hmem
  | cons a l ih =>
    simp only [List.map_cons, List.nodup_cons] at hn
    rcases List.mem_cons.mp hmem with rfl | hmem2
    · have hzero : itemsQty l it.productId = 0 := by
        simp only [itemsQty]
        have : l.filter (fun x => x.productId == it.productId) = [] := by
          rw [List.filter_eq_nil_iff]
          intro x hx hbeq
          rw [beq_iff_eq] at hbeq
          exact hn.1 (hbeq ▸ List.mem_map.mpr ⟨x, hx, rfl⟩)
        rw [this]; rfl
      rw [itemsQty_cons, hzero]
      simp
    · have hne : (a.productId == it.productId) = false := by
        rw [beq_eq_false_iff_ne]
        intro e
        exact hn.1 (e ▸ List.mem_map.mpr ⟨it, hmem2, rfl⟩)
      rw [itemsQty_cons, hne]
      simpa using ih hn.2 hmem2

/-- If no line carries a product id, the item total for it is zero. -/
theorem itemsQty_eq_zero (items : List OrderItem) (pid : String)
    (h : ∀ it ∈ items, it.productId ≠ pid) : itemsQty items pid = 0 := by
  simp only [itemsQty]
  have : items.filter (fun x => x.productId == pid) = [] := by
    rw [List.filter_eq_nil_iff]
    intro x hx hbeq
    exact h x hx (beq_iff_eq.mp hbeq)
  rw [this]; rfl

/-! ### Analysis of the create handler -/

/-- When the active-product fetch returns as many rows as the request has
items, the requested ids are pairwise distinct and each is covered by an
active fetched row. The fetch drops duplicates (it is a filter of distinct
database rows) while the request list keeps them, so equal lengths force a
duplicate-free request. -/
theorem fetched_analysis (st : Store) (productIds : List String)
    (hwf : productIdsDistinct st)
    (hlen : (st.products.filter (fun p => productIds.contains p.id && p.isActive)).length
            = productIds.length) :
    productIds.Nodup ∧
    ∀ pid ∈ productIds,
      ∃ p ∈ st.products.filter (fun p => productIds.contains p.id && p.isActive),
        p.id = pid := by
  set F := st.products.filter (fun p => productIds.contains p.id && p.isActive) with hF
  have hsub : List.Sublist F st.products := List.filter_sublist st.products
  have hFn : (F.map Product.id).Nodup := hwf.sublist (hsub.map Product.id)
  have hss : F.map Product.id ⊆ productIds := by
    intro x hx
    obtain ⟨p, hpF, rfl⟩ := List.mem_map.mp hx
    have hcond := (List.mem_filter.mp hpF).2
    have hc : productIds.contains p.id = true := by
      simp only [Bool.and_eq_true] at hcond
      exact hcond.1
    exact List.mem_of_elem_eq_true hc
  have hsp : List.Subperm (F.map Product.id) productIds := hFn.subperm hss
  have hperm : List.Perm (F.map Product.id) productIds := by
    refine hsp.perm_of_length_le ?_
    rw [List.length_map, hlen]
  refine ⟨hperm.nodup_iff.mp hFn, fun pid hpid => ?_⟩
  have : pid ∈ F.map Product.id := hperm.mem_iff.mpr hpid
  obtain ⟨p, hpF, rfl⟩ := List.mem_map.mp this
  exact ⟨p, hpF, rfl⟩

/-- Shape of a successful order creation: the persisted order, its lines, the
appended order list, the per-line stock decrement, and the checks that
necessarily passed. -/
theorem createOrder_ok_shape (st : Store) (now : ℤ) (oid : String) (req : OrderRequest)
    (st1 : Store) (ord : Order) (h : createOrder st now oid req = .ok (st1, ord)) :
    ord = buildOrder st now oid req ∧
    st1 = commitOrder st now oid req ∧
    requestValid req = true ∧
    (fetchedActive st req).length = (req.items.map RequestItem.productId).length ∧
    firstInsufficient (fetchedActive st req) req.items = none := by
  unfold createOrder at h
  split at h
  · exact absurd h (by simp)
  split at h
  · exact absurd h (by simp)
  split at h
  · exact absurd h (by simp)
  next hval hlen hdiscr hins =>
    simp only [Except.ok.injEq, Prod.mk.injEq] at h
    obtain ⟨hst, hord⟩ := h
    refine ⟨hord.symm, hst.symm, ?_, by omega, hins⟩
    cases hb : requestValid req
    · rw [hb] at hval
      exact absurd rfl hval
    · rfl

/-! ### Analysis of the status transition handler -/

/-- The persisted order update keeps the order lines untouched. -/
theorem updateOrdersList_items (orders : List Order) (orderId : String)
    (upd : OrderUpdate) (o : Order) (ho : o ∈ updateOrdersList orders orderId upd) :
    ∃ o0 ∈ orders, o.items = o0.items := by
  obtain ⟨o0, h0, rfl⟩ := List.mem_map.mp ho
  refine ⟨o0, h0, ?_⟩
  by_cases h : (o0.id == orderId) = true
  · simp [h, applyOrderUpdate]
  · simp [h]

/-- Cancelling an order whose stored status is not CANCELLED restores stock
per item and persists the update. -/
theorem putOrderStatus_cancel_eq (st : Store) (orderId : String) (existing : Order)
    (upd : OrderUpdate) (hfind : findOrder st orderId = some existing)
    (hnc : existing.status ≠ .CANCELLED) (hupd : upd.status = some .CANCELLED) :
    putOrderStatus st orderId upd =
      .ok ({ st with
             products := adjustStockForItems st.products existing.items 1,
             orders := updateOrdersList st.orders orderId upd },
           applyOrderUpdate existing upd) := by
  have hcr : cancelRestores existing upd = true := by
    simp [cancelRestores, hupd, hnc]
  have hrd : reinstateDeducts existing upd = false := by
    simp [reinstateDeducts, hupd]
  simp [putOrderStatus, hfind, hcr, hrd]

/-- An update that neither cancels a live order nor leaves CANCELLED does not
touch stock: in particular a second CANCELLED request on an already cancelled
order only re-persists the status. -/
theorem putOrderStatus_plain_eq (st : Store) (orderId : String) (existing : Order)
    (upd : OrderUpdate) (hfind : findOrder st orderId = some existing)
    (hcr : cancelRestores existing upd = false)
    (hrd : reinstateDeducts existing upd = false) :
    putOrderStatus st orderId upd =
      .ok ({ st with orders := updateOrdersList st.orders orderId upd },
           applyOrderUpdate existing upd) := by
  simp [putOrderStatus, hfind, hcr, hrd]

/-- Leaving CANCELLED: the per-item stock check decides between wholesale
rejection and the per-item decrement. -/
theorem putOrderStatus_reinstate_eq (st : Store) (orderId : String) (existing : Order)
    (upd : OrderUpdate) (hfind : findOrder st orderId = some existing)
    (hc : existing.status = .CANCELLED) (hupd : upd.status ≠ some .CANCELLED) :
    (stockCheckFails st.products existing.items = true →
       putOrderStatus st orderId upd = .error .insufficientStock) ∧
    (stockCheckFails st.products existing.items = false →
       putOrderStatus st orderId upd =
         .ok ({ st with
                products := adjustStockForItems st.products existing.items (-1),
                orders := updateOrdersList st.orders orderId upd },
              applyOrderUpdate existing upd)) := by
  have hcr : cancelRestores existing upd = false := by
    simp [cancelRestores, hc]
  have hrd : reinstateDeducts existing upd = true := by
    simp [reinstateDeducts, hc, hupd]
  constructor
  · intro hchk
    simp [putOrderStatus, hfind, hcr, hrd, hchk]
  · intro hchk
    simp [putOrderStatus, hfind, hcr, hrd, hchk]

/-! ### Stock sufficiency behind the checks -/

/-- When the fetch length check and the per-item stock check both pass, every
request line has an active product row with stock at least the quantity. -/
theorem createOrder_stocked (st : Store) (req : OrderRequest)
    (hwf : productIdsDistinct st)
    (hlen : (fetchedActive st req).length = (req.items.map RequestItem.productId).length)
    (hins : firstInsufficient (fetchedActive st req) req.items = none) :
    ∀ it ∈ req.items, ∃ p ∈ st.products,
      p.id = it.productId ∧ p.isActive = true ∧ (it.quantity : ℤ) ≤ p.stock := by
  intro it hit
  obtain ⟨hnodup, hcover⟩ := fetched_analysis st (req.items.map RequestItem.productId) hwf hlen
  have hpid : it.productId ∈ req.items.map RequestItem.productId :=
    List.mem_map.mpr ⟨it, hit, rfl⟩
  obtain ⟨pf, hpfF, hpfid⟩ := hcover it.productId hpid
  have hmemP : pf ∈ st.products := (List.mem_filter.mp hpfF).1
  have hact : pf.isActive = true := by
    have hcond := (List.mem_filter.mp hpfF).2
    simp only [Bool.and_eq_true] at hcond
    exact hcond.2
  refine ⟨pf, hmemP, hpfid, hact, ?_⟩
  have hFn : ((fetchedActive st req).map Product.id).Nodup :=
    hwf.sublist ((List.filter_sublist st.products).map Product.id)
  have hfindpf : (fetchedActive st req).find? (fun q => q.id == pf.id) = some pf :=
    find?_of_mem_of_nodup (fetchedActive st req) pf hFn hpfF
  have hfind : (fetchedActive st req).find? (fun q => q.id == it.productId) = some pf := by
    rw [← hpfid]; exact hfindpf
  have hnone := (List.findSome?_eq_none_iff.mp hins) it hit
  rw [hfind] at hnone
  have hnone2 : (if pf.stock < (it.quantity : ℤ) then some pf.name else none) = none := hnone
  by_contra hlt
  push_neg at hlt
  rw [if_pos hlt] at hnone2
  exact absurd hnone2 (by simp)

/-- Order creation preserves the store invariant. -/
theorem createOrder_preserves_inv (st : Store) (now : ℤ) (oid : String)
    (req : OrderRequest) (st1 : Store) (ord : Order) (hinv : StoreInv st)
    (h : createOrder st now oid req = .ok (st1, ord)) : StoreInv st1 := by
  obtain ⟨hnn, hwf, hords⟩ := hinv
  obtain ⟨hord, hst, hvalid, hlen, hins⟩ := createOrder_ok_shape st now oid req st1 ord h
  obtain ⟨hnodup, hcover⟩ := fetched_analysis st (req.items.map RequestItem.productId) hwf hlen
  have hitems_nodup : ((req.items.map toOrderItem).map OrderItem.productId).Nodup := by
    rw [List.map_map]
    exact hnodup
  subst hst
  refine ⟨?_, ?_, ?_⟩
  · intro p hp
    have hp2 : p ∈ adjustStockForItems st.products (req.items.map toOrderItem) (-1) := hp
    obtain ⟨q, hq, rfl⟩ := mem_adjustStockForItems _ _ _ _ hp2
    show 0 ≤ q.stock + (-1) * (itemsQty (req.items.map toOrderItem) q.id : ℤ)
    by_cases hex : ∃ it ∈ req.items, it.productId = q.id
    · obtain ⟨it, hit, hid⟩ := hex
      obtain ⟨pf, hpf, hpfid, hact2, hstk⟩ := createOrder_stocked st req hwf hlen hins it hit
      have hqp : pf = q := eq_of_mem_of_id_eq st.products pf q hwf hpf hq (by rw [hpfid, hid])
      have hmemmap : toOrderItem it ∈ req.items.map toOrderItem :=
        List.mem_map.mpr ⟨it, hit, rfl⟩
      have hqty := itemsQty_of_nodup (req.items.map toOrderItem) (toOrderItem it)
        hitems_nodup hmemmap
      have hqty2 : itemsQty (req.items.map toOrderItem) q.id = it.quantity := by
        rw [← hid]; exact hqty
      rw [hqty2]
      have hstk2 : (it.quantity : ℤ) ≤ q.stock := hqp ▸ hstk
      omega
    · push_neg at hex
      have hz : itemsQty (req.items.map toOrderItem) q.id = 0 := by
        refine itemsQty_eq_zero _ _ (fun it2 hit2 => ?_)
        obtain ⟨it0, hit0, rfl⟩ := List.mem_map.mp hit2
        exact hex it0 hit0
      rw [hz]
      have := hnn q hq
      omega
  · show ((adjustStockForItems st.products (req.items.map toOrderItem) (-1)).map Product.id).Nodup
    rw [adjustStockForItems_map_id]
    exact hwf
  · intro o ho
    rcases List.mem_append.mp ho with hold | hnew
    · exact hords o hold
    · have : o = buildOrder st now oid req := List.mem_singleton.mp hnew
      subst this
      show ((req.items.map toOrderItem).map OrderItem.productId).Nodup
      exact hitems_nodup

/-- A status transition preserves the store invariant. -/
theorem putOrderStatus_preserves_inv (st : Store) (oid : String) (upd : OrderUpdate)
    (st1 : Store) (o1 : Order) (hinv : StoreInv st)
    (h : putOrderStatus st oid upd = .ok (st1, o1)) : StoreInv st1 := by
  obtain ⟨hnn, hwf, hords⟩ := hinv
  cases hfind : findOrder st oid with
  | none =>
    unfold putOrderStatus at h
    rw [hfind] at h
    exact absurd h (by simp)
  | some existing =>
    have hexmem : existing ∈ st.orders := List.mem_of_find?_eq_some hfind
    have hexd : orderItemsDistinct existing := hords existing hexmem
    have horders : ∀ orders1, orders1 = updateOrdersList st.orders oid upd →
        ∀ o ∈ orders1, orderItemsDistinct o := by
      rintro orders1 rfl o ho
      obtain ⟨o0, h0, heq⟩ := updateOrdersList_items st.orders oid upd o ho
      show (o.items.map OrderItem.productId).Nodup
      rw [heq]
      exact hords o0 h0
    cases hrd : reinstateDeducts existing upd with
    | true =>
      have hcr : cancelRestores existing upd = false := by
        simp only [reinstateDeducts, Bool.and_eq_true] at hrd
        simp [cancelRestores, beq_iff_eq.mp hrd.1]
      cases hchk : stockCheckFails st.products existing.items with
      | true =>
        unfold putOrderStatus at h
        rw [hfind] at h
        simp [hcr, hrd, hchk] at h
      | false =>
        unfold putOrderStatus at h
        rw [hfind] at h
        simp only [hcr, hrd, hchk, Bool.false_eq_true, if_true, if_false,
          Except.ok.injEq, Prod.mk.injEq] at h
        obtain ⟨hst, _⟩ := h
        subst hst
        refine ⟨?_, ?_, horders _ rfl⟩
        · intro p hp
          obtain ⟨q, hq, rfl⟩ := mem_adjustStockForItems _ _ _ _ hp
          show 0 ≤ q.stock + (-1) * (itemsQty existing.items q.id : ℤ)
          by_cases hexq : ∃ it ∈ existing.items, it.productId = q.id
          · obtain ⟨it, hit, hid⟩ := hexq
            have hchk2 := List.any_eq_false.mp hchk it hit
            cases hfp : st.products.find? (fun p => p.id == it.productId) with
            | none => rw [hfp] at hchk2; exact absurd rfl hchk2
            | some pf =>
              rw [hfp] at hchk2
              have hlt : ¬ pf.stock < (it.quantity : ℤ) := by
                intro hl
                exact hchk2 (by simp [hl])
              have hpfmem : pf ∈ st.products := List.mem_of_find?_eq_some hfp
              have hpfid : pf.id = it.productId := by
                simpa using List.find?_some hfp
              have hqp : pf = q :=
                eq_of_mem_of_id_eq st.products pf q hwf hpfmem hq (by rw [hpfid, hid])
              have hqty : itemsQty existing.items q.id = it.quantity := by
                rw [← hid]
                exact itemsQty_of_nodup existing.items it hexd hit
              rw [hqty]
              have : (it.quantity : ℤ) ≤ q.stock := by
                rw [← hqp]
                omega
              omega
          · push_neg at hexq
            have hz : itemsQty existing.items q.id = 0 :=
              itemsQty_eq_zero _ _ (fun it2 hit2 => hexq it2 hit2)
            rw [hz]
            have := hnn q hq
            omega
        · show ((adjustStockForItems st.products existing.items (-1)).map Product.id).Nodup
          rw [adjustStockForItems_map_id]
          exact hwf
    | false =>
      cases hcr : cancelRestores existing upd with
      | true =>
        unfold putOrderStatus at h
        rw [hfind] at h
        simp only [hcr, hrd, Bool.false_eq_true, if_true, if_false,
          Except.ok.injEq, Prod.mk.injEq] at h
        obtain ⟨hst, _⟩ := h
        subst hst
        refine ⟨?_, ?_, horders _ rfl⟩
        · intro p hp
          obtain ⟨q, hq, rfl⟩ := mem_adjustStockForItems _ _ _ _ hp
          show 0 ≤ q.stock + 1 * (itemsQty existing.items q.id : ℤ)
          have := hnn q hq
          have hc : (0 : ℤ) ≤ (itemsQty existing.items q.id : ℤ) := Int.natCast_nonneg _
          omega
        · show ((adjustStockForItems st.products existing.items 1).map Product.id).Nodup
          rw [adjustStockForItems_map_id]
          exact hwf
      | false =>
        unfold putOrderStatus at h
        rw [hfind] at h
        simp only [hcr, hrd, Bool.false_eq_true, if_true, if_false,
          Except.ok.injEq, Prod.mk.injEq] at h
        obtain ⟨hst, _⟩ := h
        subst hst
        exact ⟨hnn, hwf, horders _ rfl⟩

/-- One handler invocation preserves the store invariant. -/
theorem applyOp_preserves_inv (st : Store) (op : Op) (hinv : StoreInv st) :
    StoreInv (applyOp st op) := by
  cases op with
  | create now oid req =>
    cases h : createOrder st now oid req with
    | ok x =>
      obtain ⟨sta, ord⟩ := x
      simp only [applyOp, h]
      exact createOrder_preserves_inv st now oid req sta ord hinv h
    | error e =>
      simp only [applyOp, h]
      exact hinv
  | update oid upd =>
    cases h : putOrderStatus st oid upd with
    | ok x =>
      obtain ⟨sta, ord⟩ := x
      simp only [applyOp, h]
      exact putOrderStatus_preserves_inv st oid upd sta ord hinv h
    | error e =>
      simp only [applyOp, h]
      exact hinv

/-- Any sequence of create and status-transition requests run one at a time
preserves the store invariant. -/
theorem applyOps_preserves_inv (ops : List Op) (st : Store) (hinv : StoreInv st) :
    StoreInv (applyOps st ops) := by
  induction ops generalizing st with
  | nil => exact hinv
  | cons op ops ih =>
    exact ih (applyOp st op) (applyOp_preserves_inv st op hinv)

/-- Persisting a status update keeps the row findable under its id, now
carrying the updated status. -/
theorem findOrder_update (orders : List Order) (orderId : String) (upd : OrderUpdate)
    (o : Order) (hfind : orders.find? (fun x => x.id == orderId) = some o) :
    (updateOrdersList orders orderId upd).find? (fun x => x.id == orderId) =
      some (applyOrderUpdate o upd) := by
  unfold updateOrdersList
  rw [List.find?_map]
  have hpg : ((fun x => x.id == orderId) ∘
      (fun x => if x.id == orderId then applyOrderUpdate x upd else x)) =
      fun x => x.id == orderId := by
    funext x
    by_cases hb : (x.id == orderId) = true
    · simp [Function.comp, hb, applyOrderUpdate]
    · simp [Function.comp, hb]
  rw [hpg, hfind]
  have hb : (o.id == orderId) = true := by simpa using List.find?_some hfind
  show some (if (o.id == orderId) = true then applyOrderUpdate o upd else o) =
    some (applyOrderUpdate o upd)
  rw [if_pos hb]

/-- With distinct product ids, the stock check of the reinstate branch fails
exactly when some order line has no product row of sufficient stock. -/
theorem stockCheckFails_iff (products : List Product) (items : List OrderItem)
    (hwf : (products.map Product.id).Nodup) :
    stockCheckFails products items = true ↔
      ∃ it ∈ items, ∀ p ∈ products, p.id = it.productId → p.stock < (it.quantity : ℤ) := by
  unfold stockCheckFails
  rw [List.any_eq_true]
  constructor
  · rintro ⟨it, hit, hcond⟩
    refine ⟨it, hit, fun p hp hpid => ?_⟩
    cases hfp : products.find? (fun q => q.id == it.productId) with
    | none =>
      exfalso
      have := List.find?_eq_none.mp hfp p hp
      exact this (beq_iff_eq.mpr hpid)
    | some pf =>
      rw [hfp] at hcond
      have hlt : pf.stock < (it.quantity : ℤ) := by
        by_contra hge
        simp [hge] at hcond
      have hpfmem : pf ∈ products := List.mem_of_find?_eq_some hfp
      have hpfid : pf.id = it.productId := by simpa using List.find?_some hfp
      have : p = pf := eq_of_mem_of_id_eq products p pf hwf hp hpfmem (by rw [hpid, hpfid])
      rw [this]
      exact hlt
  · rintro ⟨it, hit, hall⟩
    refine ⟨it, hit, ?_⟩
    cases hfp : products.find? (fun q => q.id == it.productId) with
    | none => rfl
    | some pf =>
      have hpfmem : pf ∈ products := List.mem_of_find?_eq_some hfp
      have hpfid : pf.id = it.productId := by simpa using List.find?_some hfp
      have := hall pf hpfmem hpfid
      simp [this]

/-! ### Claim theorems: order lifecycle -/

/-- C1: stock stays non-negative under any sequence of order create, cancel
and reinstate operations run one at a time, because create rejects any item
whose quantity exceeds current stock before decrementing and reinstatement
verifies every item's stock before decrementing. -/
theorem C1_stock_nonneg (st : Store) (ops : List Op) (hinv : StoreInv st) :
    stocksNonneg (applyOps st ops) :=
  (applyOps_preserves_inv ops st hinv).1

def stW1 : Store :=
  { products := [{ id := "p1", name := "Prod1", stock := 5, isActive := true }],
    offers := [], orders := [] }

def opsW1 : List Op :=
  [ .create 0 "o1" { items := [{ productId := "p1", quantity := 2, price := 3 }], offerCode := none },
    .update "o1" { status := some .CANCELLED },
    .update "o1" { status := some .PENDING } ]

theorem C1_stock_nonneg_witness :
    StoreInv stW1 ∧ stocksNonneg (applyOps stW1 opsW1) :=
  ⟨by decide, C1_stock_nonneg stW1 opsW1 (by decide)⟩

/-- C2: cancelling an order whose stored status is not CANCELLED increments
every product's stock by the total quantity the order's lines carry for it
(exactly once), and a second CANCELLED request on the now-cancelled order
leaves every product's stock unchanged. -/
theorem C2_cancel_restores_once (st : Store) (orderId : String) (existing : Order)
    (hfind : findOrder st orderId = some existing)
    (hnc : existing.status ≠ OrderStatus.CANCELLED) :
    putOrderStatus st orderId { status := some .CANCELLED } =
      .ok ({ st with
             products := st.products.map (fun p =>
               { p with stock := p.stock + (itemsQty existing.items p.id : ℤ) }),
             orders := updateOrdersList st.orders orderId { status := some .CANCELLED } },
           applyOrderUpdate existing { status := some .CANCELLED }) ∧
    (∀ st1 o1, putOrderStatus st orderId { status := some .CANCELLED } = .ok (st1, o1) →
      ∀ st2 o2, putOrderStatus st1 orderId { status := some .CANCELLED } = .ok (st2, o2) →
        st2.products = st1.products) := by
  have hshape := putOrderStatus_cancel_eq st orderId existing
    { status := some .CANCELLED } hfind hnc rfl
  constructor
  · rw [hshape, adjustStockForItems_eq]
    simp only [one_mul]
  · intro st1 o1 hok1 st2 o2 hok2
    rw [hshape] at hok1
    simp only [Except.ok.injEq, Prod.mk.injEq] at hok1
    obtain ⟨hst1, _⟩ := hok1
    subst hst1
    have hfind1 : findOrder
        { st with
          products := adjustStockForItems st.products existing.items 1,
          orders := updateOrdersList st.orders orderId { status := some .CANCELLED } }
        orderId = some (applyOrderUpdate existing { status := some .CANCELLED }) := by
      unfold findOrder at hfind ⊢
      exact findOrder_update st.orders orderId { status := some .CANCELLED } existing hfind
    have hcr2 : cancelRestores (applyOrderUpdate existing { status := some .CANCELLED })
        { status := some .CANCELLED } = false := by
      simp [cancelRestores, applyOrderUpdate]
    have hrd2 : reinstateDeducts (applyOrderUpdate existing { status := some .CANCELLED })
        { status := some .CANCELLED } = false := by
      simp [reinstateDeducts, applyOrderUpdate]
    have hplain := putOrderStatus_plain_eq _ orderId _ _ hfind1 hcr2 hrd2
    rw [hplain] at hok2
    simp only [Except.ok.injEq, Prod.mk.injEq] at hok2
    obtain ⟨hst2, _⟩ := hok2
    rw [← hst2]

def stW2 : Store :=
  { products := [{ id := "p1", name := "Prod1", stock := 0, isActive := true }],
    offers := [],
    orders := [{ id := "o1", status := .PENDING, subtotal := 2, discount := 0, tax := 0,
                 shipping := 0, total := 2, offerId := none,
                 items := [{ productId := "p1", quantity := 2, price := 1, total := 2 }] }] }

def ordW2 : Order :=
  { id := "o1", status := .PENDING, subtotal := 2, discount := 0, tax := 0,
    shipping := 0, total := 2, offerId := none,
    items := [{ productId := "p1", quantity := 2, price := 1, total := 2 }] }

theorem C2_cancel_restores_once_witness :
    findOrder stW2 "o1" = some ordW2 ∧ ordW2.status ≠ OrderStatus.CANCELLED ∧
    putOrderStatus stW2 "o1" { status := some .CANCELLED } =
      .ok ({ stW2 with
             products := stW2.products.map (fun p =>
               { p with stock := p.stock + (itemsQty ordW2.items p.id : ℤ) }),
             orders := updateOrdersList stW2.orders "o1" { status := some .CANCELLED } },
           applyOrderUpdate ordW2 { status := some .CANCELLED }) :=
  ⟨by decide, by decide,
   (C2_cancel_restores_once stW2 "o1" ordW2 (by decide) (by decide)).1⟩

/-- C3 (amended): through the admin orders PUT handler, leaving CANCELLED
either rejects the whole transition with no stock mutation (when some line's
product is missing or short on stock) or decrements every line's product
stock and persists the requested status; the order-by-id PUT handler, by
contrast, transitions out of CANCELLED unconditionally, with no stock check
and no stock mutation, only persisting the new status. -/
theorem C3_reinstate_guarded (st : Store) (orderId : String) (existing : Order)
    (s : OrderStatus) (hwf : productIdsDistinct st)
    (hfind : findOrder st orderId = some existing)
    (hc : existing.status = OrderStatus.CANCELLED)
    (hs : s ≠ OrderStatus.CANCELLED) :
    (stockCheckFails st.products existing.items = true ↔
       ∃ it ∈ existing.items, ∀ p ∈ st.products,
         p.id = it.productId → p.stock < (it.quantity : ℤ)) ∧
    (stockCheckFails st.products existing.items = true →
       putOrderStatus st orderId { status := some s } = .error .insufficientStock ∧
       applyOp st (.update orderId { status := some s }) = st) ∧
    (stockCheckFails st.products existing.items = false →
       putOrderStatus st orderId { status := some s } =
         .ok ({ st with
                products := st.products.map (fun p =>
                  { p with stock := p.stock - (itemsQty existing.items p.id : ℤ) }),
                orders := updateOrdersList st.orders orderId { status := some s } },
              applyOrderUpdate existing { status := some s }) ∧
       (applyOrderUpdate existing { status := some s }).status = s) ∧
    (putOrderStatusById st orderId { status := some s } =
       .ok ({ st with orders := updateOrdersList st.orders orderId { status := some s } },
            applyOrderUpdate existing { status := some s }) ∧
     (applyOrderUpdate existing { status := some s }).status = s) := by
  have hupd : ({ status := some s } : OrderUpdate).status ≠ some OrderStatus.CANCELLED := by
    intro hcon
    exact hs (Option.some.inj hcon)
  have hre := putOrderStatus_reinstate_eq st orderId existing { status := some s } hfind hc hupd
  refine ⟨stockCheckFails_iff st.products existing.items hwf, ?_, ?_, ?_, rfl⟩
  · intro hchk
    refine ⟨hre.1 hchk, ?_⟩
    simp [applyOp, hre.1 hchk]
  · intro hchk
    refine ⟨?_, rfl⟩
    rw [hre.2 hchk, adjustStockForItems_eq]
    simp only [neg_mul, one_mul, ← sub_eq_add_neg]
  · have hsb : (s == OrderStatus.CANCELLED) = false := by
      rw [beq_eq_false_iff_ne]
      exact hs
    have hcrB : cancelRestores existing { status := some s } = false := by
      simp [cancelRestores, hsb]
    unfold putOrderStatusById
    rw [hfind]
    simp [hcrB]

def stW3 : Store :=
  { products := [{ id := "p1", name := "Prod1", stock := 3, isActive := true }],
    offers := [],
    orders := [{ id := "o1", status := .CANCELLED, subtotal := 2, discount := 0, tax := 0,
                 shipping := 0, total := 2, offerId := none,
                 items := [{ productId := "p1", quantity := 2, price := 1, total := 2 }] }] }

def ordW3 : Order :=
  { id := "o1", status := .CANCELLED, subtotal := 2, discount := 0, tax := 0,
    shipping := 0, total := 2, offerId := none,
    items := [{ productId := "p1", quantity := 2, price := 1, total := 2 }] }

theorem C3_reinstate_guarded_witness :
    productIdsDistinct stW3 ∧ findOrder stW3 "o1" = some ordW3 ∧
    stockCheckFails stW3.products ordW3.items = false ∧
    putOrderStatus stW3 "o1" { status := some .PENDING } =
      .ok ({ stW3 with
             products := stW3.products.map (fun p =>
               { p with stock := p.stock - (itemsQty ordW3.items p.id : ℤ) }),
             orders := updateOrdersList stW3.orders "o1" { status := some .PENDING } },
           applyOrderUpdate ordW3 { status := some .PENDING }) :=
  ⟨by decide, by decide, by decide,
   ((C3_reinstate_guarded stW3 "o1" ordW3 .PENDING (by decide) (by decide) (by decide)
      (by decide)).2.2.1 (by decide)).1⟩

/-- C3 counterexample order and store: a cancelled order for 2 units of a
product whose current stock is 0. -/
def ordC3 : Order :=
  { id := "o1", status := .CANCELLED, subtotal := 2, discount := 0, tax := 0,
    shipping := 0, total := 2, offerId := none,
    items := [{ productId := "p1", quantity := 2, price := 1, total := 2 }] }

def stC3 : Store :=
  { products := [{ id := "p1", name := "Prod1", stock := 0, isActive := true }],
    offers := [], orders := [ordC3] }

def ordC3upd : Order :=
  { id := "o1", status := .PENDING, subtotal := 2, discount := 0, tax := 0,
    shipping := 0, total := 2, offerId := none,
    items := [{ productId := "p1", quantity := 2, price := 1, total := 2 }] }

def stC3upd : Store :=
  { products := [{ id := "p1", name := "Prod1", stock := 0, isActive := true }],
    offers := [], orders := [ordC3upd] }

/-- C3 counterexample: the order-by-id PUT handler moves a CANCELLED order
back to PENDING although its line needs 2 units and the product has stock 0 —
the per-item check would fail, yet the transition is neither rejected nor
does it decrement any stock: the status is persisted and every product row is
left exactly as it was. -/
theorem C3_reinstate_guarded_ce :
    findOrder stC3 "o1" = some ordC3 ∧
    ordC3.status = OrderStatus.CANCELLED ∧
    stockCheckFails stC3.products ordC3.items = true ∧
    putOrderStatusById stC3 "o1" { status := some .PENDING } = .ok (stC3upd, ordC3upd) ∧
    ordC3upd.status = OrderStatus.PENDING ∧
    stC3upd.products = stC3.products :=
  ⟨by decide, rfl, by decide, rfl, rfl, rfl⟩

/-! ### Evaluator branch lemmas -/

theorem applyFoundOffer_none (cartTotal : ℚ) (pids : Option (List String)) :
    applyFoundOffer none cartTotal pids =
      { discount := 0, finalPrice := cartTotal, offer := none } := rfl

theorem applyFoundOffer_minBlocked (o : Offer) (cartTotal : ℚ) (pids : Option (List String))
    (h : minAmountBlocks o cartTotal = true) :
    applyFoundOffer (some o) cartTotal pids =
      { discount := 0, finalPrice := cartTotal, offer := none } := by
  simp [applyFoundOffer, h]

theorem applyFoundOffer_scopeBlocked (o : Offer) (cartTotal : ℚ) (pids : Option (List String))
    (h1 : minAmountBlocks o cartTotal = false) (h2 : scopeBlocks o pids = true) :
    applyFoundOffer (some o) cartTotal pids =
      { discount := 0, finalPrice := cartTotal, offer := none } := by
  simp [applyFoundOffer, h1, h2]

theorem applyFoundOffer_applied (o : Offer) (cartTotal : ℚ) (pids : Option (List String))
    (h1 : minAmountBlocks o cartTotal = false) (h2 : scopeBlocks o pids = false) :
    applyFoundOffer (some o) cartTotal pids =
      { discount := computeDiscount o cartTotal,
        finalPrice := cartTotal - computeDiscount o cartTotal, offer := some o } := by
  simp [applyFoundOffer, h1, h2]

/-- The evaluator only reports an offer it actually found. -/
theorem applyFoundOffer_offer_eq (found : Option Offer) (cartTotal : ℚ)
    (pids : Option (List String)) (o : Offer)
    (h : (applyFoundOffer found cartTotal pids).offer = some o) : found = some o := by
  cases found with
  | none => simp [applyFoundOffer] at h
  | some o2 =>
    by_cases h1 : minAmountBlocks o2 cartTotal = true
    · rw [applyFoundOffer_minBlocked o2 cartTotal pids h1] at h
      simp at h
    · have h1f : minAmountBlocks o2 cartTotal = false := Bool.eq_false_iff.mpr h1
      by_cases h2 : scopeBlocks o2 pids = true
      · rw [applyFoundOffer_scopeBlocked o2 cartTotal pids h1f h2] at h
        simp at h
      · have h2f : scopeBlocks o2 pids = false := Bool.eq_false_iff.mpr h2
        rw [applyFoundOffer_applied o2 cartTotal pids h1f h2f] at h
        simpa using h

/-! ### Claim theorems: offer evaluator -/

/-- C4 counterexample offer: a PERCENTAGE offer of value 200, creatable since
the offer schema only demands a positive value. -/
def offBig : Offer :=
  { id := "of2", code := "BIG", isActive := true, type := .PERCENTAGE, value := 200,
    minAmount := none, maxUses := none, usedCount := 0, startsAt := 0, endsAt := 100,
    productOfferIds := [] }

attribute [local semireducible] Rat.mul Rat.inv Rat.add Rat.sub in
/-- C4 counterexample: an eligible PERCENTAGE offer with value 200 yields a
discount of 20 on a subtotal of 10, so the discount exceeds the subtotal and
the final price goes negative. -/
theorem C4_discount_bounds_ce :
    (validateAndApplyOffer [offBig] 50 "BIG" 10 none).discount = 20 ∧
    ¬((validateAndApplyOffer [offBig] 50 "BIG" 10 none).discount ≤ 10) ∧
    (validateAndApplyOffer [offBig] 50 "BIG" 10 none).finalPrice = -10 := by decide

/-- C4 (amended): finalPrice always equals subtotal minus discount and the
discount is non-negative; the discount is bounded by the subtotal for
FIXED_AMOUNT (clamped by min) and FREE_SHIPPING offers, and for PERCENTAGE
offers exactly when the stored value is at most 100 — an eligible PERCENTAGE
offer with value above 100 produces a discount above the subtotal. -/
theorem C4_discount_bounds (offers : List Offer) (now : ℤ) (code : String)
    (cartTotal : ℚ) (pids : Option (List String))
    (h0 : 0 ≤ cartTotal) (hv : ∀ o ∈ offers, 0 ≤ o.value) :
    (validateAndApplyOffer offers now code cartTotal pids).finalPrice =
      cartTotal - (validateAndApplyOffer offers now code cartTotal pids).discount ∧
    0 ≤ (validateAndApplyOffer offers now code cartTotal pids).discount ∧
    ((∀ o ∈ offers, o.type = OfferType.PERCENTAGE → o.value ≤ 100) →
      (validateAndApplyOffer offers now code cartTotal pids).discount ≤ cartTotal) ∧
    (∀ o, (validateAndApplyOffer offers now code cartTotal pids).offer = some o →
      (o.type = OfferType.FIXED_AMOUNT →
        (validateAndApplyOffer offers now code cartTotal pids).discount = min o.value cartTotal) ∧
      (o.type = OfferType.PERCENTAGE →
        (validateAndApplyOffer offers now code cartTotal pids).discount =
          cartTotal * (o.value / 100))) := by
  cases hf : findOffer offers now code with
  | none =>
    have hz : validateAndApplyOffer offers now code cartTotal pids =
        { discount := 0, finalPrice := cartTotal, offer := none } := by
      unfold validateAndApplyOffer
      rw [hf]
      rfl
    rw [hz]
    exact ⟨(sub_zero cartTotal).symm, le_refl 0, fun _ => h0, fun o ho => by simp at ho⟩
  | some o =>
    have hmem : o ∈ offers := List.mem_of_find?_eq_some hf
    have hvo := hv o hmem
    by_cases hmb : minAmountBlocks o cartTotal = true
    · have hz : validateAndApplyOffer offers now code cartTotal pids =
          { discount := 0, finalPrice := cartTotal, offer := none } := by
        unfold validateAndApplyOffer
        rw [hf]
        exact applyFoundOffer_minBlocked o cartTotal pids hmb
      rw [hz]
      exact ⟨(sub_zero cartTotal).symm, le_refl 0, fun _ => h0, fun o2 ho2 => by simp at ho2⟩
    · have hmbf : minAmountBlocks o cartTotal = false := Bool.eq_false_iff.mpr hmb
      by_cases hsb : scopeBlocks o pids = true
      · have hz : validateAndApplyOffer offers now code cartTotal pids =
            { discount := 0, finalPrice := cartTotal, offer := none } := by
          unfold validateAndApplyOffer
          rw [hf]
          exact applyFoundOffer_scopeBlocked o cartTotal pids hmbf hsb
        rw [hz]
        exact ⟨(sub_zero cartTotal).symm, le_refl 0, fun _ => h0, fun o2 ho2 => by simp at ho2⟩
      · have hsbf : scopeBlocks o pids = false := Bool.eq_false_iff.mpr hsb
        have hz : validateAndApplyOffer offers now code cartTotal pids =
            { discount := computeDiscount o cartTotal,
              finalPrice := cartTotal - computeDiscount o cartTotal, offer := some o } := by
          unfold validateAndApplyOffer
          rw [hf]
          exact applyFoundOffer_applied o cartTotal pids hmbf hsbf
        rw [hz]
        refine ⟨rfl, ?_, ?_, ?_⟩
        · show 0 ≤ computeDiscount o cartTotal
          unfold computeDiscount
          cases hty : o.type
          · exact mul_nonneg h0 (div_nonneg hvo (by norm_num))
          · exact le_min hvo h0
          · exact le_refl 0
        · intro h100
          show computeDiscount o cartTotal ≤ cartTotal
          unfold computeDiscount
          cases hty : o.type with
          | PERCENTAGE =>
            have hv100 := h100 o hmem hty
            have hle1 : o.value / 100 ≤ 1 := by
              rw [div_le_one (by norm_num : (0:ℚ) < 100)]
              exact hv100
            calc cartTotal * (o.value / 100) ≤ cartTotal * 1 :=
                  mul_le_mul_of_nonneg_left hle1 h0
              _ = cartTotal := mul_one cartTotal
          | FIXED_AMOUNT => exact min_le_right o.value cartTotal
          | FREE_SHIPPING => exact h0
        · intro o2 ho2
          have ho2e : o2 = o := (Option.some.inj ho2).symm
          subst ho2e
          constructor
          · intro hty
            show computeDiscount o2 cartTotal = min o2.value cartTotal
            unfold computeDiscount
            rw [hty]
          · intro hty
            show computeDiscount o2 cartTotal = cartTotal * (o2.value / 100)
            unfold computeDiscount
            rw [hty]

/-- Concrete offer of the spec scenarios: SUMMER20, PERCENTAGE, value 20,
minAmount 50. -/
def offSummer : Offer :=
  { id := "of1", code := "SUMMER20", isActive := true, type := .PERCENTAGE, value := 20,
    minAmount := some 50, maxUses := none, usedCount := 0, startsAt := 0, endsAt := 1000,
    productOfferIds := [] }

theorem C4_discount_bounds_witness :
    (0:ℚ) ≤ 100 ∧ (∀ o ∈ [offSummer], 0 ≤ o.value) ∧
    (∀ o ∈ [offSummer], o.type = OfferType.PERCENTAGE → o.value ≤ 100) ∧
    (validateAndApplyOffer [offSummer] 5 "SUMMER20" 100 none).discount ≤ 100 :=
  ⟨by norm_num, by decide, by decide,
   (C4_discount_bounds [offSummer] 5 "SUMMER20" 100 none (by norm_num)
     (by decide)).2.2.1 (by decide)⟩

attribute [local semireducible] Rat.mul Rat.inv Rat.add Rat.sub in
/-- C5 counterexample: the lookup uses endsAt ≥ now, so at now equal to
endsAt the offer is still eligible and yields a non-zero discount, while the
claim demands zero discount at any time at or past endsAt. -/
theorem C5_window_ce :
    offSummer.endsAt ≤ 1000 ∧
    (validateAndApplyOffer [offSummer] 1000 "SUMMER20" 100 none).discount = 20 ∧
    ¬((validateAndApplyOffer [offSummer] 1000 "SUMMER20" 100 none).discount = 0) := by
  decide

/-- C5 (amended): an offer is only reported when isActive holds, now lies in
the closed window from startsAt to endsAt, and maxUses is unset or usedCount
is below it; when no stored offer passes that query the evaluator totally
returns zero discount, the unchanged subtotal and no offer reference; in
particular any time strictly past endsAt yields that zero result. -/
theorem C5_eligibility (offers : List Offer) (now : ℤ) (code : String)
    (cartTotal : ℚ) (pids : Option (List String)) :
    (∀ o, (validateAndApplyOffer offers now code cartTotal pids).offer = some o →
       o.isActive = true ∧ o.startsAt ≤ now ∧ now ≤ o.endsAt ∧
       (o.maxUses = none ∨ ∃ m, o.maxUses = some m ∧ o.usedCount < m)) ∧
    ((∀ o ∈ offers, offerQueryMatches now (jsToUpper code) o = false) →
       validateAndApplyOffer offers now code cartTotal pids =
         { discount := 0, finalPrice := cartTotal, offer := none }) ∧
    ((∀ o ∈ offers, o.endsAt < now) →
       validateAndApplyOffer offers now code cartTotal pids =
         { discount := 0, finalPrice := cartTotal, offer := none }) := by
  refine ⟨?_, ?_, ?_⟩
  · intro o ho
    have hfound : findOffer offers now code = some o :=
      applyFoundOffer_offer_eq (findOffer offers now code) cartTotal pids o ho
    have hq : offerQueryMatches now (jsToUpper code) o = true := by
      simpa using List.find?_some hfound
    unfold offerQueryMatches at hq
    simp only [Bool.and_eq_true, decide_eq_true_eq] at hq
    obtain ⟨⟨⟨⟨hcode, hact⟩, hstart⟩, hend⟩, hmu⟩ := hq
    refine ⟨hact, hstart, hend, ?_⟩
    cases hm : o.maxUses with
    | none => exact Or.inl rfl
    | some m =>
      rw [hm] at hmu
      exact Or.inr ⟨m, rfl, by simpa using hmu⟩
  · intro hall
    have hnone : findOffer offers now code = none := by
      unfold findOffer
      exact List.find?_eq_none.mpr (fun o ho => by simp [hall o ho])
    unfold validateAndApplyOffer
    rw [hnone]
    rfl
  · intro hlate
    have hall : ∀ o ∈ offers, offerQueryMatches now (jsToUpper code) o = false := by
      intro o ho
      have hd : (decide (now ≤ o.endsAt)) = false := decide_eq_false (not_le.mpr (hlate o ho))
      simp [offerQueryMatches, hd]
    have hnone : findOffer offers now code = none := by
      unfold findOffer
      exact List.find?_eq_none.mpr (fun o ho => by simp [hall o ho])
    unfold validateAndApplyOffer
    rw [hnone]
    rfl

theorem C5_eligibility_witness :
    (∀ o ∈ [offSummer], o.endsAt < (2000:ℤ)) ∧
    validateAndApplyOffer [offSummer] 2000 "SUMMER20" 100 none =
      { discount := 0, finalPrice := 100, offer := none } :=
  ⟨by decide, (C5_eligibility [offSummer] 2000 "SUMMER20" 100 none).2.2 (by decide)⟩

/-- C6 counterexample offer: stored with a lowercase code, exactly as the
offer-creation handler persists it (no case normalization on insert). -/
def offLower : Offer :=
  { id := "of3", code := "summer20", isActive := true, type := .PERCENTAGE, value := 20,
    minAmount := some 50, maxUses := none, usedCount := 0, startsAt := 0, endsAt := 1000,
    productOfferIds := [] }

attribute [local semireducible] Rat.mul Rat.inv Rat.add Rat.sub in
/-- C6 counterexample: the input code is literally equal to the stored code
(hence equal up to case), the offer is active, in-window and unused, yet the
evaluator finds nothing: the uppercased input SUMMER20 never equals the
stored lowercase code. -/
theorem C6_case_insensitive_ce :
    jsToUpper "summer20" = jsToUpper offLower.code ∧
    offLower.isActive = true ∧ offLower.startsAt ≤ (5:ℤ) ∧ (5:ℤ) ≤ offLower.endsAt ∧
    offLower.maxUses = none ∧
    (validateAndApplyOffer [offLower] 5 "summer20" 100 none).offer = none ∧
    (validateAndApplyOffer [offLower] 5 "summer20" 100 none).discount = 0 := by
  decide

/-- C6 (amended): the lookup uppercases the input and compares it with the
stored code for exact equality, so an eligible offer is found for every input
equal to its code up to case exactly when the stored code is invariant under
uppercasing; creation persists the code verbatim. -/
theorem C6_lookup_uppercase (o : Offer) (inputCode : String) (now : ℤ) :
    (findOffer [o] now inputCode = some o ↔
       offerQueryMatches now (jsToUpper inputCode) o = true) ∧
    (jsToUpper o.code = o.code → jsToUpper inputCode = jsToUpper o.code →
     o.isActive = true → o.startsAt ≤ now → now ≤ o.endsAt → o.maxUses = none →
     findOffer [o] now inputCode = some o) := by
  have hiff : findOffer [o] now inputCode = some o ↔
      offerQueryMatches now (jsToUpper inputCode) o = true := by
    unfold findOffer
    cases hq : offerQueryMatches now (jsToUpper inputCode) o
    · constructor
      · intro hfs
        simp [List.find?_cons, hq] at hfs
      · intro hcontra
        exact absurd hcontra (by simp)
    · constructor
      · intro _
        rfl
      · intro _
        simp [List.find?_cons, hq]
  refine ⟨hiff, fun hupper hcase hact hs he hmu => hiff.mpr ?_⟩
  unfold offerQueryMatches
  rw [hmu]
  have hcode : (o.code == jsToUpper inputCode) = true := by
    rw [beq_iff_eq, hcase, hupper]
  have hds : (decide (o.startsAt ≤ now)) = true := decide_eq_true hs
  have hde : (decide (now ≤ o.endsAt)) = true := decide_eq_true he
  simp [hcode, hact, hds, hde]

theorem C6_lookup_uppercase_witness :
    jsToUpper offSummer.code = offSummer.code ∧
    jsToUpper "sUmMeR20" = jsToUpper offSummer.code ∧
    findOffer [offSummer] 5 "sUmMeR20" = some offSummer :=
  ⟨by decide, by decide,
   (C6_lookup_uppercase offSummer "sUmMeR20" 5).2 (by decide) (by decide) (by decide)
     (by decide) (by decide) (by decide)⟩

/-- C10: the try/catch around the lookup makes the evaluator total: a failed
lookup returns exactly the zero-discount result, indistinguishable from an
unknown or ineligible code, and the pure evaluator is the ok-instance of the
fallible one. -/
theorem C10_catch_swallows (e : String) (cartTotal : ℚ) (pids : Option (List String))
    (offers : List Offer) (now : ℤ) (code : String) :
    validateAndApplyOfferE (.error e) cartTotal pids =
      { discount := 0, finalPrice := cartTotal, offer := none } ∧
    validateAndApplyOfferE (.error e) cartTotal pids =
      validateAndApplyOfferE (.ok none) cartTotal pids ∧
    validateAndApplyOffer offers now code cartTotal pids =
      validateAndApplyOfferE (.ok (findOffer offers now code)) cartTotal pids :=
  ⟨rfl, rfl, rfl⟩

/-! ### Claim theorems: order creation and totals -/

/-- C7: every successfully created order carries tax of one tenth of the
subtotal (computed before discount), shipping of zero above a 50 subtotal and
5.99 otherwise, and a total of subtotal minus discount plus tax plus
shipping. -/
theorem C7_order_charges (st : Store) (now : ℤ) (oid : String) (req : OrderRequest)
    (st1 : Store) (ord : Order) (h : createOrder st now oid req = .ok (st1, ord)) :
    ord.tax = ord.subtotal * (1 / 10) ∧
    ord.shipping = (if ord.subtotal > 50 then 0 else 599 / 100) ∧
    ord.total = ord.subtotal - ord.discount + ord.tax + ord.shipping ∧
    ord.total = computeTotal ord.subtotal ord.discount := by
  obtain ⟨hord, -, -, -, -⟩ := createOrder_ok_shape st now oid req st1 ord h
  subst hord
  exact ⟨rfl, rfl, rfl, rfl⟩

/-- Concrete store and request of the spec scenario: one product, offer
SUMMER20, a cart line priced at 100. -/
def stW7 : Store :=
  { products := [{ id := "p1", name := "Prod1", stock := 5, isActive := true }],
    offers := [offSummer], orders := [] }

def reqW7 : OrderRequest :=
  { items := [{ productId := "p1", quantity := 1, price := 100 }],
    offerCode := some "SUMMER20" }

attribute [local semireducible] Rat.mul Rat.inv Rat.add Rat.sub in
theorem C7_order_charges_witness :
    createOrder stW7 5 "o1" reqW7 = .ok (commitOrder stW7 5 "o1" reqW7, buildOrder stW7 5 "o1" reqW7) ∧
    (buildOrder stW7 5 "o1" reqW7).subtotal = 100 ∧
    (buildOrder stW7 5 "o1" reqW7).discount = 20 ∧
    (buildOrder stW7 5 "o1" reqW7).tax = 10 ∧
    (buildOrder stW7 5 "o1" reqW7).shipping = 0 ∧
    (buildOrder stW7 5 "o1" reqW7).total = 90 ∧
    (buildOrder stW7 5 "o1" reqW7).total =
      (buildOrder stW7 5 "o1" reqW7).subtotal - (buildOrder stW7 5 "o1" reqW7).discount +
      (buildOrder stW7 5 "o1" reqW7).tax + (buildOrder stW7 5 "o1" reqW7).shipping :=
  ⟨rfl, by decide, by decide, by decide, by decide, by decide,
   (C7_order_charges stW7 5 "o1" reqW7 (commitOrder stW7 5 "o1" reqW7)
     (buildOrder stW7 5 "o1" reqW7) rfl).2.2.1⟩

/-- A create failure reporting insufficient stock comes from the per-item
check on the fetched products. -/
theorem createOrder_insufficient_name (st : Store) (now : ℤ) (oid : String)
    (req : OrderRequest) (name : String)
    (h : createOrder st now oid req = .error (.insufficientStock name)) :
    firstInsufficient (fetchedActive st req) req.items = some name := by
  unfold createOrder at h
  split at h
  · simp at h
  split at h
  · simp at h
  split at h
  next heq =>
    simp only [Except.error.injEq, CreateError.insufficientStock.injEq] at h
    rw [← h]
    exact heq
  · simp at h

/-- Unfolding a positive result of the per-item stock check. -/
theorem firstInsufficient_some (fetched : List Product) (items : List RequestItem)
    (name : String) (h : firstInsufficient fetched items = some name) :
    ∃ it ∈ items, ∃ p ∈ fetched, p.id = it.productId ∧ p.name = name ∧
      p.stock < (it.quantity : ℤ) := by
  obtain ⟨it, hit, hsome⟩ := List.exists_of_findSome?_eq_some h
  cases hfp : fetched.find? (fun p => p.id == it.productId) with
  | none =>
    rw [hfp] at hsome
    exact absurd hsome (by simp)
  | some pf =>
    rw [hfp] at hsome
    have hsome2 : (if pf.stock < (it.quantity : ℤ) then some pf.name else none) = some name :=
      hsome
    by_cases hlt : pf.stock < (it.quantity : ℤ)
    · rw [if_pos hlt] at hsome2
      refine ⟨it, hit, pf, List.mem_of_find?_eq_some hfp, ?_, Option.some.inj hsome2, hlt⟩
      simpa using List.find?_some hfp
    · rw [if_neg hlt] at hsome2
      exact absurd hsome2 (by simp)

/-- C8 (amended): creation is all-or-nothing — it persists the order with its
lines and decrements stock per line only when every requested product exists,
is active and has sufficient stock, and any failure happens before any write;
the insufficient-stock failure names the failing product, while the
missing-or-inactive failure carries only a generic message identifying no
product. -/
theorem C8_create_all_or_nothing (st : Store) (now : ℤ) (oid : String)
    (req : OrderRequest) (hwf : productIdsDistinct st) :
    (∀ st1 ord, createOrder st now oid req = .ok (st1, ord) →
       (∀ it ∈ req.items, ∃ p ∈ st.products,
          p.id = it.productId ∧ p.isActive = true ∧ (it.quantity : ℤ) ≤ p.stock) ∧
       st1.orders = st.orders ++ [ord] ∧
       ord.items = req.items.map toOrderItem ∧
       st1.products = st.products.map (fun p =>
         { p with stock := p.stock - (itemsQty (req.items.map toOrderItem) p.id : ℤ) })) ∧
    (∀ e, createOrder st now oid req = .error e →
       applyOp st (.create now oid req) = st) ∧
    ((∃ it ∈ req.items, ¬∃ p ∈ st.products,
        p.id = it.productId ∧ p.isActive = true ∧ (it.quantity : ℤ) ≤ p.stock) →
       ∃ e, createOrder st now oid req = .error e) ∧
    (∀ name, createOrder st now oid req = .error (.insufficientStock name) →
       ∃ it ∈ req.items, ∃ p ∈ st.products,
         p.id = it.productId ∧ p.name = name ∧ p.stock < (it.quantity : ℤ)) := by
  refine ⟨?_, ?_, ?_, ?_⟩
  · intro st1 ord h
    obtain ⟨hord, hst, hvalid, hlen, hins⟩ := createOrder_ok_shape st now oid req st1 ord h
    refine ⟨createOrder_stocked st req hwf hlen hins, ?_, ?_, ?_⟩
    · rw [hst, hord]
      rfl
    · rw [hord]
      rfl
    · rw [hst]
      show adjustStockForItems st.products (req.items.map toOrderItem) (-1) = _
      rw [adjustStockForItems_eq]
      simp only [neg_mul, one_mul, ← sub_eq_add_neg]
  · intro e he
    simp [applyOp, he]
  · rintro ⟨it, hit, hnost⟩
    cases hres : createOrder st now oid req with
    | error e => exact ⟨e, rfl⟩
    | ok x =>
      obtain ⟨st1, ord⟩ := x
      obtain ⟨-, -, -, hlen, hins⟩ := createOrder_ok_shape st now oid req st1 ord hres
      exact absurd (createOrder_stocked st req hwf hlen hins it hit) hnost
  · intro name hname
    have hfi := createOrder_insufficient_name st now oid req name hname
    obtain ⟨it, hit, pf, hpfF, hid, hnm, hlt⟩ :=
      firstInsufficient_some (fetchedActive st req) req.items name hfi
    exact ⟨it, hit, pf, (List.mem_filter.mp hpfF).1, hid, hnm, hlt⟩

/-- C8 counterexample store and requests: the same one-product catalog, two
requests naming two different unknown products. -/
def stW8 : Store :=
  { products := [{ id := "p1", name := "Prod1", stock := 5, isActive := true }],
    offers := [], orders := [] }

def reqMissA : OrderRequest :=
  { items := [{ productId := "pA", quantity := 1, price := 1 }], offerCode := none }

def reqMissB : OrderRequest :=
  { items := [{ productId := "pB", quantity := 1, price := 1 }], offerCode := none }

/-- C8 counterexample: two requests failing on two different missing products
produce the identical productsUnavailable error whose message carries no
product identifier, so the failure response does not report which product
failed. -/
theorem C8_report_ce :
    createOrder stW8 0 "o1" reqMissA = .error .productsUnavailable ∧
    createOrder stW8 0 "o1" reqMissB = .error .productsUnavailable ∧
    reqMissA ≠ reqMissB ∧
    createErrorMessage .productsUnavailable = "Some products are not available" := by
  refine ⟨rfl, rfl, by decide, rfl⟩

theorem C8_create_all_or_nothing_witness :
    productIdsDistinct stW8 ∧
    createOrder stW8 0 "o1" reqMissA = .error .productsUnavailable ∧
    applyOp stW8 (.create 0 "o1" reqMissA) = stW8 :=
  ⟨by decide, rfl,
   (C8_create_all_or_nothing stW8 0 "o1" reqMissA (by decide)).2.1 .productsUnavailable rfl⟩

/-! ### Claim theorems: review aggregator -/

/-- Shape of a successful review creation: the inserted review, the new state,
and the three checks that necessarily passed. -/
theorem createReview_ok_shape (st : ReviewState) (u pid : String) (rating : ℕ)
    (st1 : ReviewState) (rv : Review) (h : createReview st u pid rating = .ok (st1, rv)) :
    rv = { userId := u, productId := pid, rating := rating, isActive := true } ∧
    st1 = updateProductRating { st with reviews := st.reviews ++ [rv] } pid ∧
    (1 ≤ rating ∧ rating ≤ 5) ∧
    (st.products.any (fun p => p.id == pid)) = true ∧
    (st.reviews.any (fun r => r.userId == u && r.productId == pid)) = false := by
  unfold createReview at h
  split at h
  · simp at h
  split at h
  · simp at h
  split at h
  · simp at h
  next hval hprod hdup =>
    simp only [Except.ok.injEq, Prod.mk.injEq] at h
    obtain ⟨hst, hrv⟩ := h
    have hvalb : (decide (1 ≤ rating) && decide (rating ≤ 5)) = true := by
      cases hb : (decide (1 ≤ rating) && decide (rating ≤ 5))
      · rw [hb] at hval
        exact absurd rfl hval
      · rfl
    have hprodb : (st.products.any (fun p => p.id == pid)) = true := by
      cases hb : st.products.any (fun p => p.id == pid)
      · rw [hb] at hprod
        exact absurd rfl hprod
      · rfl
    have hdupb : (st.reviews.any (fun r => r.userId == u && r.productId == pid)) = false := by
      cases hb : st.reviews.any (fun r => r.userId == u && r.productId == pid)
      · rfl
      · rw [hb] at hdup
        exact absurd rfl hdup
    simp only [Bool.and_eq_true, decide_eq_true_eq] at hvalb
    subst hrv
    exact ⟨rfl, hst.symm, hvalb, hprodb, hdupb⟩

/-- C9: reviews are unique per (user, product) — a second attempt for the same
pair never succeeds — and each successful creation recomputes the owning
product's rating as the arithmetic mean of all its active reviews (non-empty
after the insert) and its reviewCount as their count by a full re-scan; a
product with no active reviews is written rating 0 and count 0. -/
theorem C9_review_unique_and_mean (st : ReviewState) (u pid : String) (rating : ℕ)
    (hp : pairUnique st) :
    ((∃ r ∈ st.reviews, r.userId = u ∧ r.productId = pid) →
       ∀ x, createReview st u pid rating ≠ .ok x) ∧
    (∀ st1 rv, createReview st u pid rating = .ok (st1, rv) →
       pairUnique st1 ∧
       st1.reviews = st.reviews ++ [rv] ∧
       (∀ r ∈ st.reviews, ¬(r.userId = u ∧ r.productId = pid)) ∧
       (∀ p ∈ st1.products, p.id = pid →
          p.reviewCount = (activeRatings st1.reviews pid).length ∧
          0 < (activeRatings st1.reviews pid).length ∧
          p.rating = ((activeRatings st1.reviews pid).sum : ℚ) /
            ((activeRatings st1.reviews pid).length : ℚ))) ∧
    (∀ pid0, activeRatings st.reviews pid0 = [] →
       ∀ p ∈ (updateProductRating st pid0).products, p.id = pid0 →
         p.rating = 0 ∧ p.reviewCount = 0) := by
  refine ⟨?_, ?_, ?_⟩
  · rintro ⟨r, hr, hru, hrp⟩ x hok
    obtain ⟨-, -, -, -, hdup⟩ := createReview_ok_shape st u pid rating x.1 x.2 hok
    have : st.reviews.any (fun r2 => r2.userId == u && r2.productId == pid) = true :=
      List.any_eq_true.mpr ⟨r, hr, by simp [hru, hrp]⟩
    rw [this] at hdup
    exact absurd hdup (by simp)
  · intro st1 rv hok
    obtain ⟨hrv, hst1, hvalr, hprod, hdup⟩ := createReview_ok_shape st u pid rating st1 rv hok
    have hnodup : ∀ r ∈ st.reviews, ¬(r.userId = u ∧ r.productId = pid) := by
      intro r hr hcon
      have : st.reviews.any (fun r2 => r2.userId == u && r2.productId == pid) = true :=
        List.any_eq_true.mpr ⟨r, hr, by simp [hcon.1, hcon.2]⟩
      rw [this] at hdup
      exact absurd hdup (by simp)
    subst hst1
    have hrevs : (updateProductRating { st with reviews := st.reviews ++ [rv] } pid).reviews =
        st.reviews ++ [rv] := rfl
    refine ⟨?_, hrevs, hnodup, ?_⟩
    · show (st.reviews ++ [rv]).Pairwise
        (fun r1 r2 => ¬(r1.userId = r2.userId ∧ r1.productId = r2.productId))
      rw [List.pairwise_append]
      refine ⟨hp, by simp, ?_⟩
      intro a ha b hb
      have hbr : b = rv := List.mem_singleton.mp hb
      subst hbr
      subst hrv
      intro hcon
      exact hnodup a ha ⟨hcon.1, hcon.2⟩
    · intro p hpmem hpid
      have hrvpid : rv.productId = pid := by rw [hrv]
      have hrvact : rv.isActive = true := by rw [hrv]
      have hlenpos : 0 < (activeRatings (st.reviews ++ [rv]) pid).length := by
        unfold activeRatings
        rw [List.filter_append]
        have : [rv].filter (fun r => r.productId == pid && r.isActive) = [rv] := by
          simp [hrvpid, hrvact]
        rw [this]
        simp
      obtain ⟨p0, hp0, hpeq⟩ := List.mem_map.mp hpmem
      by_cases hb : (p0.id == pid) = true
      · rw [if_pos hb] at hpeq
        rw [← hpeq] at hpid ⊢
        have hifpos :
            (if 0 < (activeRatings (st.reviews ++ [rv]) pid).length then
              ((activeRatings (st.reviews ++ [rv]) pid).sum : ℚ) /
                ((activeRatings (st.reviews ++ [rv]) pid).length : ℚ)
             else 0) =
            ((activeRatings (st.reviews ++ [rv]) pid).sum : ℚ) /
              ((activeRatings (st.reviews ++ [rv]) pid).length : ℚ) := if_pos hlenpos
        exact ⟨rfl, hlenpos, hifpos⟩
      · rw [if_neg hb] at hpeq
        rw [← hpeq] at hpid
        exact absurd (beq_iff_eq.mpr hpid) hb
  · intro pid0 hempty p hpmem hpid
    unfold updateProductRating at hpmem
    rw [hempty] at hpmem
    obtain ⟨p0, hp0, hpeq⟩ := List.mem_map.mp hpmem
    by_cases hb : (p0.id == pid0) = true
    · rw [if_pos hb] at hpeq
      rw [← hpeq]
      exact ⟨by simp, rfl⟩
    · rw [if_neg hb] at hpeq
      rw [← hpeq] at hpid
      exact absurd (beq_iff_eq.mpr hpid) hb

def rStW : ReviewState :=
  { products := [{ id := "p1", rating := 0, reviewCount := 0 }], reviews := [] }

def rvW : Review :=
  { userId := "u1", productId := "p1", rating := 4, isActive := true }

def rStW1 : ReviewState :=
  { products := [{ id := "p1", rating := 4, reviewCount := 1 }], reviews := [rvW] }

attribute [local semireducible] Rat.mul Rat.inv Rat.add Rat.sub in
theorem C9_review_unique_and_mean_witness :
    pairUnique rStW ∧
    createReview rStW "u1" "p1" 4 = .ok (rStW1, rvW) ∧
    rStW1.reviews = rStW.reviews ++ [rvW] :=
  ⟨by decide, rfl,
   ((C9_review_unique_and_mean rStW "u1" "p1" 4 (by decide)).2.1 rStW1 rvW rfl).2.1⟩

end Snazo
